import Mathlib

/-!
Shallow embedding of the partial-graph execution state and kernel registry
manager of the onnxruntime training runtime, together with proofs about the
program-region computation, its cache, the execution-context lifecycle, the
device-stream lifecycle and the kernel-registry priority order.

Sources embedded:
* onnxruntime/core/framework/partial_graph_execution_state.cc
* onnxruntime/core/framework/kernel_registry_manager.h
Collaborator types that live outside those files (execution plan, session
state, execution frame, device stream collection) are modelled from the
specification of their interfaces; each such definition is marked
`Modelled from the spec:` in its doc comment.
-/

namespace onnxruntime

/-- A logic stream of the sequential execution plan.  Only the data the
embedded functions read is kept: the per-step program counters
(`stream->step_pc`, a vector of size_t) and the number of execution steps
(`stream->steps_.size()`). -/
structure LogicStream where
  step_pc : List Nat
  steps_size : Nat
deriving DecidableEq

/-- Modelled from the spec: the execution plan is an ordered list of
per-stream step lists (each possibly null, as the code guards with
`if (stream && ...)`), a barrier count and a notification-owner table. -/
structure SequentialExecutionPlan where
  execution_plan : List (Option LogicStream)
  num_barriers : Nat
  notification_owners : List Nat
deriving DecidableEq

/-- A cached program region: the window key (start_pc, end_pc) and one
`[start, end)` index pair per stream of the plan. -/
structure ProgramRegion where
  start_pc : Nat
  end_pc : Nat
  stream_pc_range : List (Nat × Nat)
deriving DecidableEq

/-- Modelled from the spec: the execution frame's feed/fetch bindings
(OrtValues abstracted to Nat). -/
structure ExecutionFrame where
  feed_mlvalue_idxs : List Int
  feeds : List Nat
  fetch_mlvalue_idxs : List Int
  fetches : List Nat
deriving DecidableEq

/-- Modelled from the spec: the live execution context constructed by
PartialGraphExecutionState::GetExecutionContext; fields are the constructor
arguments the embedded code passes (loggers, device stream collections and
custom allocators abstracted to plain data). -/
structure ExecutionContext where
  valid_streams : Nat
  notification_owners : List Nat
  frame : ExecutionFrame
  fetch_allocators : List (Nat × Nat)
  num_barriers : Nat
  logger : Nat
  device_streams : Nat
  single_thread_mode : Bool
deriving DecidableEq

/-- Modelled from the spec: a collection of device execution streams,
abstracted to an identity. -/
abbrev DeviceStreamCollection := Nat

/-- Modelled from the spec: the part of the session state the embedded code
reads — the execution plan, the initialized tensors, and the device-stream
pool bookkeeping (a counter of handed-out collections and the list of
collections recycled back to the pool). -/
structure SessionState where
  execution_plan : SequentialExecutionPlan
  initialized_tensors : List Nat
  acquired_stream_collections : Nat
  recycled_stream_collections : List DeviceStreamCollection
deriving DecidableEq

/-- The resumable partial-graph execution state: the program-counter window
for the next resumption, the append-only region cache, the lazily created
execution context and the lazily acquired device stream collection. -/
structure PartialGraphExecutionState where
  program_counter_start_ : Nat
  program_counter_end_ : Nat
  program_regions_ : List ProgramRegion
  execution_context_ : Option ExecutionContext
  device_stream_collection_ : Option DeviceStreamCollection
deriving DecidableEq

/-- The forward scan of GetProgramRegions:
`while (cur < stream->step_pc.size() && stream->step_pc[cur] < bound) cur++;`
returns how far `cur` advances from the head of `pcs`, i.e. the index of the
first entry that is `≥ bound` (the length when every entry is below). -/
def scanIdx : List Nat → Nat → Nat
  | [], _ => 0
  | p :: rest, bound => if p < bound then scanIdx rest bound + 1 else 0

/-- The per-stream body of the GetProgramRegions loop: the first while loop
leaves `cur` at `scanIdx pcs s` (recorded as `start`), the second while loop
continues from there with bound `e`. -/
def scanRegion (pcs : List Nat) (s e : Nat) : Nat × Nat :=
  let start := scanIdx pcs s
  (start, start + scanIdx (pcs.drop start) e)

/-- The `for (auto& stream : plan->execution_plan)` loop of GetProgramRegions:
one `{start, cur}` pair is pushed per stream, in plan order.  The C++ code
dereferences each stream pointer unconditionally, so a null stream makes the
computation undefined, embedded as `none`. -/
def streamRanges : List (Option LogicStream) → Nat → Nat → Option (List (Nat × Nat))
  | [], _, _ => some []
  | none :: _, _, _ => none
  | some stream :: rest, s, e =>
      (streamRanges rest s e).map (fun tail => scanRegion stream.step_pc s e :: tail)

/-- The `std::find_if` over `program_regions_`: the first cached region whose
start_pc and end_pc both equal the requested window. -/
def lookupRegion (cache : List ProgramRegion) (s e : Nat) : Option ProgramRegion :=
  cache.find? (fun region => region.start_pc == s && region.end_pc == e)

/-- PartialGraphExecutionState::GetProgramRegions: return the first cached
region matching the current window; on a miss compute a fresh region from the
session's execution plan, push it at the back of the cache and return it. -/
def GetProgramRegions (st : PartialGraphExecutionState) (session_state : SessionState) :
    Option (ProgramRegion × PartialGraphExecutionState) :=
  match lookupRegion st.program_regions_ st.program_counter_start_ st.program_counter_end_ with
  | some region => some (region, st)
  | none =>
      match streamRanges session_state.execution_plan.execution_plan
          st.program_counter_start_ st.program_counter_end_ with
      | none => none
      | some ranges =>
          let new_region : ProgramRegion :=
            ⟨st.program_counter_start_, st.program_counter_end_, ranges⟩
          some (new_region, { st with program_regions_ := st.program_regions_ ++ [new_region] })

/-- Modelled from the spec: SessionState::AcquireDeviceStreamCollection hands
out a device stream collection from the session; the counter records how many
collections have been acquired and doubles as a fresh identity. -/
def AcquireDeviceStreamCollection (session_state : SessionState) :
    DeviceStreamCollection × SessionState :=
  (session_state.acquired_stream_collections,
   { session_state with
       acquired_stream_collections := session_state.acquired_stream_collections + 1 })

/-- Modelled from the spec: SessionState::RecycleDeviceStreamCollection hands a
collection back to the session's pool.  In the source it is referenced only by
the commented-out deleter inside GetDeviceStreamCollection. -/
def RecycleDeviceStreamCollection (session_state : SessionState)
    (d : DeviceStreamCollection) : SessionState :=
  { session_state with
      recycled_stream_collections := d :: session_state.recycled_stream_collections }

/-- PartialGraphExecutionState::GetDeviceStreamCollection: acquire a collection
from the session on the first call and cache it; later calls return the cached
collection without touching the session. -/
def GetDeviceStreamCollection (st : PartialGraphExecutionState)
    (session_state : SessionState) :
    DeviceStreamCollection × PartialGraphExecutionState × SessionState :=
  match st.device_stream_collection_ with
  | some d => (d, st, session_state)
  | none =>
      let (d, session_state') := AcquireDeviceStreamCollection session_state
      (d, { st with device_stream_collection_ := some d }, session_state')

/-- PartialGraphExecutionState::~PartialGraphExecutionState: the destructor
body is empty; the owned device stream collection is deleted with the unique
pointer member and is never handed back to the session (the deleter that would
call RecycleDeviceStreamCollection is commented out in the source), so the
session state is untouched by destruction. -/
def destructPartialGraphExecutionState (_st : PartialGraphExecutionState)
    (session_state : SessionState) : SessionState :=
  session_state

/-- Modelled from the spec: ExecutionFrame::UpdateFeeds replaces the frame's
feed bindings with the ones supplied for this resumption. -/
def ExecutionFrame.UpdateFeeds (f : ExecutionFrame) (feed_mlvalue_idxs : List Int)
    (feeds : List Nat) : ExecutionFrame :=
  { f with feed_mlvalue_idxs := feed_mlvalue_idxs, feeds := feeds }

/-- Modelled from the spec: ExecutionFrame::UpdateFetches replaces the frame's
fetch bindings with the ones supplied for this resumption (the initialized
tensors of the session are consulted for buffer reuse only, which is below the
level of this model). -/
def ExecutionFrame.UpdateFetches (f : ExecutionFrame) (fetch_mlvalue_idxs : List Int)
    (fetches : List Nat) (_initialized_tensors : List Nat) : ExecutionFrame :=
  { f with fetch_mlvalue_idxs := fetch_mlvalue_idxs, fetches := fetches }

/-- Modelled from the spec: ExecutionContext::SetLogger replaces the logger
reference. -/
def ExecutionContext.SetLogger (c : ExecutionContext) (logger : Nat) : ExecutionContext :=
  { c with logger := logger }

/-- The valid-stream counting loop of GetExecutionContext:
`for (auto& stream : ...) if (stream && stream->steps_.size() > 0) valid_streams++;`. -/
def countValidStreams (streams : List (Option LogicStream)) : Nat :=
  streams.foldl
    (fun valid_streams stream =>
      match stream with
      | some s => if 0 < s.steps_size then valid_streams + 1 else valid_streams
      | none => valid_streams)
    0

/-- PartialGraphExecutionState::GetExecutionContext: on the first call build
the context from the plan (stream count = number of non-null, non-empty
streams; single-thread mode hard-coded to true) and cache it; on later calls
update only the frame's feeds and fetches and the logger of the cached
context. -/
def GetExecutionContext (st : PartialGraphExecutionState)
    (feed_mlvalue_idxs : List Int) (feeds : List Nat)
    (fetch_mlvalue_idxs : List Int) (fetches : List Nat)
    (fetch_allocators : List (Nat × Nat))
    (session_state : SessionState) (sess_logger : Nat)
    (device_streams : DeviceStreamCollection) :
    ExecutionContext × PartialGraphExecutionState :=
  match st.execution_context_ with
  | none =>
      let execution_plan := session_state.execution_plan
      let valid_streams := countValidStreams execution_plan.execution_plan
      let ctx : ExecutionContext :=
        { valid_streams := valid_streams
          notification_owners := execution_plan.notification_owners
          frame := ⟨feed_mlvalue_idxs, feeds, fetch_mlvalue_idxs, fetches⟩
          fetch_allocators := fetch_allocators
          num_barriers := execution_plan.num_barriers
          logger := sess_logger
          device_streams := device_streams
          -- partial executor in training can only be run with single thread
          single_thread_mode := true }
      (ctx, { st with execution_context_ := some ctx })
  | some ctx =>
      let frame :=
        (ctx.frame.UpdateFeeds feed_mlvalue_idxs feeds).UpdateFetches
          fetch_mlvalue_idxs fetches session_state.initialized_tensors
      let ctx' := ({ ctx with frame := frame }).SetLogger sess_logger
      (ctx', { st with execution_context_ := some ctx' })

/-! ## Kernel registry manager -/

/-- A kernel registry, abstracted to an identity: the embedded operations
never look inside one. -/
abbrev KernelRegistry := Nat

/-- Modelled from the spec: an execution provider exposes its provider type
string and its kernel registry. -/
structure IExecutionProvider where
  provider_type : String
  kernel_registry : KernelRegistry
deriving DecidableEq

/-- The status type: ok, or a failure carrying a message. -/
inductive Status where
  | ok : Status
  | fail (msg : String) : Status
deriving DecidableEq

/-- The kernel registry manager: the provider-type map (an association list
standing for the unordered_map, queried through List.lookup) and the custom
registry list, highest priority first. -/
structure KernelRegistryManager where
  provider_type_to_registry_ : List (String × KernelRegistry)
  custom_kernel_registries_ : List KernelRegistry
deriving DecidableEq

/-- The empty manager produced by the default constructor. -/
def emptyKernelRegistryManager : KernelRegistryManager := ⟨[], []⟩

/-- Modelled from the spec: KernelRegistryManager::RegisterKernels walks the
execution providers in order; a provider whose type is already in the
provider-type map makes the call fail with a configuration error (leaving the
map as accumulated so far), otherwise the provider's registry is inserted
under its type. -/
def RegisterKernels (m : KernelRegistryManager) :
    List IExecutionProvider → Status × KernelRegistryManager
  | [] => (Status.ok, m)
  | p :: rest =>
      match m.provider_type_to_registry_.lookup p.provider_type with
      | some _ => (Status.fail ("found duplicated provider"), m)
      | none =>
          RegisterKernels
            { m with
                provider_type_to_registry_ :=
                  (p.provider_type, p.kernel_registry) :: m.provider_type_to_registry_ }
            rest

/-- Modelled from the spec: KernelRegistryManager::RegisterKernelRegistry
prepends the registry to the custom list, so the most recently registered
registry outranks everything already present. -/
def RegisterKernelRegistry (m : KernelRegistryManager) (r : KernelRegistry) :
    KernelRegistryManager :=
  { m with custom_kernel_registries_ := r :: m.custom_kernel_registries_ }

/-- KernelRegistryManager::GetKernelRegistriesByProviderType: push every custom
registry in list order, then the provider-type registry for the queried type
when one exists. -/
def GetKernelRegistriesByProviderType (m : KernelRegistryManager) (ty : String) :
    List KernelRegistry :=
  m.custom_kernel_registries_ ++ (m.provider_type_to_registry_.lookup ty).toList

/-- One registration call on the manager, for reasoning about arbitrary call
sequences. -/
inductive RegistrationOp where
  | kernels (providers : List IExecutionProvider) : RegistrationOp
  | customRegistry (r : KernelRegistry) : RegistrationOp
deriving DecidableEq

/-- Apply one registration call (the status of RegisterKernels is returned to
the caller and does not change which registries were stored). -/
def applyRegistration (m : KernelRegistryManager) : RegistrationOp → KernelRegistryManager
  | RegistrationOp.kernels providers => (RegisterKernels m providers).2
  | RegistrationOp.customRegistry r => RegisterKernelRegistry m r

/-- The custom registries a call sequence registers, in call order. -/
def customRegistrationsOf : List RegistrationOp → List KernelRegistry
  | [] => []
  | RegistrationOp.kernels _ :: rest => customRegistrationsOf rest
  | RegistrationOp.customRegistry r :: rest => r :: customRegistrationsOf rest

/-! ## Derived predicates and concrete instances used in the statements -/

/-- Membership of a step index in a `[start, end)` pair. -/
def inHalfOpen (p : Nat × Nat) (k : Nat) : Prop := p.1 ≤ k ∧ k < p.2

instance (p : Nat × Nat) (k : Nat) : Decidable (inHalfOpen p k) :=
  inferInstanceAs (Decidable (p.1 ≤ k ∧ k < p.2))

/-- A step index is covered by exactly one of two `[start, end)` pairs. -/
def coveredExactlyOnce (p q : Nat × Nat) (k : Nat) : Prop :=
  Xor' (inHalfOpen p k) (inHalfOpen q k)

instance (p q : Nat × Nat) (k : Nat) : Decidable (coveredExactlyOnce p q k) :=
  inferInstanceAs (Decidable (Xor' _ _))

/-- The condition counted by the valid-stream loop, as a predicate on one
stream slot: non-null and holding at least one step. -/
def isValidStream : Option LogicStream → Bool
  | some stream => decide (0 < stream.steps_size)
  | none => false

/-- Number of program counters of one (possibly null) stream slot. -/
def pcLen : Option LogicStream → Nat
  | none => 0
  | some stream => stream.step_pc.length

/-- Well-formedness of a region against a plan: one index pair per stream, in
plan order, each pair an ordered sub-range of that stream's step list. -/
def regionWF (streams : List (Option LogicStream)) (r : ProgramRegion) : Prop :=
  r.stream_pc_range.length = streams.length ∧
  ∀ j, j < r.stream_pc_range.length →
    (r.stream_pc_range.getD j (0, 0)).1 ≤ (r.stream_pc_range.getD j (0, 0)).2 ∧
    (r.stream_pc_range.getD j (0, 0)).2 ≤ pcLen (streams.getD j none)

instance (streams : List (Option LogicStream)) (r : ProgramRegion) :
    Decidable (regionWF streams r) :=
  inferInstanceAs (Decidable (_ ∧ ∀ j, j < _ → _))

/-- Boolean check that a list of program counters is non-decreasing. -/
def chainLeB : List Nat → Bool
  | [] => true
  | [_] => true
  | a :: b :: rest => decide (a ≤ b) && chainLeB (b :: rest)

theorem chainLeB_iff : ∀ l : List Nat,
    chainLeB l = true ↔ List.Chain' (fun a b => a ≤ b) l
  | [] => by simp [chainLeB]
  | [a] => by simp [chainLeB]
  | a :: b :: rest => by
      rw [chainLeB]
      simp [List.chain'_cons, Bool.and_eq_true, chainLeB_iff (b :: rest)]

/-- The step-pc sequence of one (possibly null) stream slot is
non-decreasing. -/
def streamSorted : Option LogicStream → Prop
  | none => True
  | some stream => List.Chain' (fun a b => a ≤ b) stream.step_pc

instance : (os : Option LogicStream) → Decidable (streamSorted os)
  | none => isTrue trivial
  | some stream => decidable_of_iff (chainLeB stream.step_pc = true) (chainLeB_iff _)

/-- Every step pc of one (possibly null) stream slot lies in `[a, c)`. -/
def streamSpanned (a c : Nat) : Option LogicStream → Prop
  | none => True
  | some stream => ∀ pc ∈ stream.step_pc, a ≤ pc ∧ pc < c

instance (a c : Nat) : (os : Option LogicStream) → Decidable (streamSpanned a c os)
  | none => isTrue trivial
  | some stream => inferInstanceAs (Decidable (∀ pc ∈ stream.step_pc, a ≤ pc ∧ pc < c))

/-- A plan mixing a null stream, an empty stream and a two-step stream, to
separate the valid-stream count from the total stream count. -/
def mixedPlan : SequentialExecutionPlan :=
  ⟨[none, some ⟨[0], 0⟩, some ⟨[1, 2], 2⟩], 1, [0]⟩

/-- A session around the mixed plan. -/
def mixedSession : SessionState := ⟨mixedPlan, [], 0, []⟩

/-- A concrete already-built execution context, for exercising resumptions. -/
def resumeCtx : ExecutionContext := ⟨1, [0], ⟨[], [], [], []⟩, [], 2, 0, 0, true⟩

/-- An instance that already holds resumeCtx as its execution context. -/
def resumeState : PartialGraphExecutionState := ⟨0, 3, [], some resumeCtx, none⟩

/-- The spec's worked example: stream S1 with step pcs 0,2,5,9 and stream S2
with step pcs 1,3,7. -/
def examplePlan : SequentialExecutionPlan :=
  ⟨[some ⟨[0, 2, 5, 9], 4⟩, some ⟨[1, 3, 7], 3⟩], 2, [0, 1]⟩

/-- A session around the worked example plan. -/
def exampleSession : SessionState := ⟨examplePlan, [], 0, []⟩

/-- A one-stream plan with a single step at pc 3, used to exercise windows
that skip a step. -/
def gapPlan : SequentialExecutionPlan := ⟨[some ⟨[3], 1⟩], 0, [0]⟩

/-- A session around the gap plan. -/
def gapSession : SessionState := ⟨gapPlan, [], 0, []⟩

/-! ## Scan lemmas -/

/-- The claim's characterization of the scan endpoints: the index of the first
step whose program counter is at least `bound`, defaulting to the stream
length when there is none. -/
def firstStepAtOrAfter (pcs : List Nat) (bound : Nat) : Nat :=
  pcs.findIdx (fun p => decide (bound ≤ p))

theorem scanIdx_le_length (pcs : List Nat) (bound : Nat) : scanIdx pcs bound ≤ pcs.length := by
  induction pcs with
  | nil => simp [scanIdx]
  | cons p rest ih =>
      simp only [scanIdx, List.length_cons]
      split
      · omega
      · omega

theorem scanIdx_eq_firstStepAtOrAfter (pcs : List Nat) (bound : Nat) :
    scanIdx pcs bound = firstStepAtOrAfter pcs bound := by
  induction pcs with
  | nil => simp [scanIdx, firstStepAtOrAfter]
  | cons p rest ih =>
      simp only [scanIdx, firstStepAtOrAfter, List.findIdx_cons] at *
      by_cases h : p < bound
      · simp [h, Nat.not_le.mpr h, ih]
      · simp [h, Nat.le_of_not_lt (by exact h)]

theorem scanIdx_add_drop (pcs : List Nat) (s e : Nat) (hse : s ≤ e) :
    scanIdx pcs s + scanIdx (pcs.drop (scanIdx pcs s)) e = scanIdx pcs e := by
  induction pcs with
  | nil => simp [scanIdx]
  | cons p rest ih =>
      by_cases h : p < s
      · have he : p < e := Nat.lt_of_lt_of_le h hse
        simp only [scanIdx, if_pos h, if_pos he, List.drop_succ_cons]
        omega
      · simp [scanIdx, if_neg h]

theorem scanRegion_eq_spec (pcs : List Nat) (s e : Nat) (hse : s ≤ e) :
    scanRegion pcs s e = (firstStepAtOrAfter pcs s, firstStepAtOrAfter pcs e) := by
  simp only [scanRegion]
  rw [scanIdx_add_drop pcs s e hse, scanIdx_eq_firstStepAtOrAfter,
    scanIdx_eq_firstStepAtOrAfter]

theorem scanIdx_eq_zero_of_forall_ge (pcs : List Nat) (bound : Nat)
    (h : ∀ p ∈ pcs, bound ≤ p) : scanIdx pcs bound = 0 := by
  cases pcs with
  | nil => rfl
  | cons p rest =>
      have : ¬ p < bound := Nat.not_lt.mpr (h p (List.mem_cons_self _ _))
      simp [scanIdx, this]

theorem scanIdx_eq_length_of_forall_lt (pcs : List Nat) (bound : Nat)
    (h : ∀ p ∈ pcs, p < bound) : scanIdx pcs bound = pcs.length := by
  induction pcs with
  | nil => rfl
  | cons p rest ih =>
      have hp : p < bound := h p (List.mem_cons_self _ _)
      simp only [scanIdx, if_pos hp, List.length_cons]
      have := ih (fun q hq => h q (List.mem_cons_of_mem _ hq))
      omega

/-! ## streamRanges lemmas -/

theorem streamRanges_length (streams : List (Option LogicStream)) (s e : Nat)
    (ranges : List (Nat × Nat)) (h : streamRanges streams s e = some ranges) :
    ranges.length = streams.length := by
  induction streams generalizing ranges with
  | nil => simp [streamRanges] at h; simp [← h]
  | cons os rest ih =>
      cases os with
      | none => simp [streamRanges] at h
      | some stream =>
          simp only [streamRanges, Option.map_eq_some'] at h
          obtain ⟨tail, htail, hr⟩ := h
          subst hr
          simp [ih tail htail]

theorem streamRanges_getD (streams : List (Option LogicStream)) (s e : Nat)
    (ranges : List (Nat × Nat)) (h : streamRanges streams s e = some ranges) :
    ∀ j, j < streams.length →
      ∃ stream, streams.getD j none = some stream ∧
        ranges.getD j (0, 0) = scanRegion stream.step_pc s e := by
  induction streams generalizing ranges with
  | nil => intro j hj; simp at hj
  | cons os rest ih =>
      cases os with
      | none => simp [streamRanges] at h
      | some stream =>
          simp only [streamRanges, Option.map_eq_some'] at h
          obtain ⟨tail, htail, hr⟩ := h
          subst hr
          intro j hj
          cases j with
          | zero => exact ⟨stream, rfl, rfl⟩
          | succ k =>
              have hk : k < rest.length := by simpa using hj
              simpa using ih tail htail k hk

/-! ## GetProgramRegions dispatch lemmas -/

theorem find?_append_none {α : Type} (p : α → Bool) (l₁ l₂ : List α)
    (h : l₁.find? p = none) : (l₁ ++ l₂).find? p = l₂.find? p := by
  induction l₁ with
  | nil => simp
  | cons a l ih =>
      simp only [List.find?_cons] at h ⊢
      cases hpa : p a with
      | true => rw [hpa] at h; cases h
      | false =>
          rw [hpa] at h
          rw [List.cons_append, List.find?_cons, hpa]
          exact ih h

theorem getProgramRegions_hit (st : PartialGraphExecutionState) (sess : SessionState)
    (region : ProgramRegion)
    (h : lookupRegion st.program_regions_ st.program_counter_start_ st.program_counter_end_ =
      some region) :
    GetProgramRegions st sess = some (region, st) := by
  unfold GetProgramRegions
  rw [h]

theorem getProgramRegions_miss (st : PartialGraphExecutionState) (sess : SessionState)
    (ranges : List (Nat × Nat))
    (hl : lookupRegion st.program_regions_ st.program_counter_start_ st.program_counter_end_ =
      none)
    (hr : streamRanges sess.execution_plan.execution_plan
      st.program_counter_start_ st.program_counter_end_ = some ranges) :
    GetProgramRegions st sess =
      some (⟨st.program_counter_start_, st.program_counter_end_, ranges⟩,
        { st with program_regions_ := st.program_regions_ ++
            [⟨st.program_counter_start_, st.program_counter_end_, ranges⟩] }) := by
  unfold GetProgramRegions
  rw [hl, hr]

theorem getProgramRegions_inv (st : PartialGraphExecutionState) (sess : SessionState)
    (r : ProgramRegion) (st' : PartialGraphExecutionState)
    (h : GetProgramRegions st sess = some (r, st')) :
    (lookupRegion st.program_regions_ st.program_counter_start_ st.program_counter_end_ =
        some r ∧ st' = st) ∨
    (lookupRegion st.program_regions_ st.program_counter_start_ st.program_counter_end_ =
        none ∧
      streamRanges sess.execution_plan.execution_plan
          st.program_counter_start_ st.program_counter_end_ = some r.stream_pc_range ∧
      r.start_pc = st.program_counter_start_ ∧
      r.end_pc = st.program_counter_end_ ∧
      st' = { st with program_regions_ := st.program_regions_ ++ [r] }) := by
  unfold GetProgramRegions at h
  cases hl : lookupRegion st.program_regions_ st.program_counter_start_
      st.program_counter_end_ with
  | some region =>
      rw [hl] at h
      simp only [Option.some.injEq, Prod.mk.injEq] at h
      obtain ⟨h1, h2⟩ := h
      subst h1
      subst h2
      exact Or.inl ⟨rfl, rfl⟩
  | none =>
      rw [hl] at h
      cases hr : streamRanges sess.execution_plan.execution_plan
          st.program_counter_start_ st.program_counter_end_ with
      | none => rw [hr] at h; cases h
      | some ranges =>
          rw [hr] at h
          simp only [Option.some.injEq, Prod.mk.injEq] at h
          obtain ⟨hreg, hst⟩ := h
          subst hreg
          subst hst
          exact Or.inr ⟨rfl, rfl, rfl, rfl, rfl⟩

theorem scanRegion_def (pcs : List Nat) (s e : Nat) :
    scanRegion pcs s e =
      (scanIdx pcs s, scanIdx pcs s + scanIdx (pcs.drop (scanIdx pcs s)) e) := rfl

theorem getD_some_mem {α : Type} (l : List (Option α)) (j : Nat) (hj : j < l.length)
    (x : α) (h : l.getD j none = some x) : some x ∈ l := by
  induction l generalizing j with
  | nil => simp at hj
  | cons a t ih =>
      cases j with
      | zero =>
          simp only [List.getD_cons_zero] at h
          rw [h] at *
          exact List.mem_cons_self _ _
      | succ n =>
          simp only [List.getD_cons_succ] at h
          have hn : n < t.length := by simpa using hj
          exact List.mem_cons_of_mem _ (ih n hn h)

theorem regionWF_of_streamRanges (streams : List (Option LogicStream)) (s e : Nat)
    (ranges : List (Nat × Nat)) (h : streamRanges streams s e = some ranges) :
    regionWF streams ⟨s, e, ranges⟩ := by
  have hlen := streamRanges_length streams s e ranges h
  refine ⟨hlen, ?_⟩
  intro j hj
  have hj' : j < streams.length := by rw [← hlen]; exact hj
  obtain ⟨stream, hgs, hgr⟩ := streamRanges_getD streams s e ranges h j hj'
  rw [hgr, hgs, scanRegion_def]
  constructor
  · exact Nat.le_add_right _ _
  · have h1 := scanIdx_le_length stream.step_pc s
    have h2 := scanIdx_le_length (stream.step_pc.drop (scanIdx stream.step_pc s)) e
    rw [List.length_drop] at h2
    simp only [pcLen]
    omega

/-- Two adjacent windows [a,b) and [b,c) partition the step indices of a
stream whose program counters all lie in [a,c): every index is covered by
exactly one of the two scanned sub-ranges. -/
theorem scanRegion_partition (pcs : List Nat) (a b c : Nat) (hab : a ≤ b) (hbc : b ≤ c)
    (hspan : ∀ pc ∈ pcs, a ≤ pc ∧ pc < c) (k : Nat) (hk : k < pcs.length) :
    coveredExactlyOnce (scanRegion pcs a b) (scanRegion pcs b c) k := by
  have h0 : scanIdx pcs a = 0 :=
    scanIdx_eq_zero_of_forall_ge pcs a (fun p hp => (hspan p hp).1)
  have hm := scanIdx_le_length pcs b
  have hlen : scanIdx (pcs.drop (scanIdx pcs b)) c = (pcs.drop (scanIdx pcs b)).length :=
    scanIdx_eq_length_of_forall_lt _ c
      (fun p hp => (hspan p (List.mem_of_mem_drop hp)).2)
  rw [scanRegion_def, scanRegion_def, h0, List.drop_zero, hlen, List.length_drop]
  simp only [coveredExactlyOnce, inHalfOpen, Xor']
  simp only [Nat.zero_add]
  omega

/-! ## Claim C1 -/

/-- C1: on a cache miss and for a window with non-decreasing per-stream
step-pc sequences, GetProgramRegions produces, for each stream of the plan in
order, the pair (index of the first step with pc at or above start_pc, index
of the first step with pc at or above end_pc), each defaulting to the stream
length when no such step exists. -/
theorem C1_cache_miss_region_spec
    (st : PartialGraphExecutionState) (session_state : SessionState)
    (hsorted : ∀ os ∈ session_state.execution_plan.execution_plan, streamSorted os)
    (hse : st.program_counter_start_ ≤ st.program_counter_end_)
    (hmiss : lookupRegion st.program_regions_ st.program_counter_start_
        st.program_counter_end_ = none)
    (r : ProgramRegion) (st' : PartialGraphExecutionState)
    (hcall : GetProgramRegions st session_state = some (r, st')) :
    r.stream_pc_range.length = session_state.execution_plan.execution_plan.length ∧
    ∀ j, j < session_state.execution_plan.execution_plan.length →
      ∀ stream : LogicStream,
        session_state.execution_plan.execution_plan.getD j none = some stream →
          r.stream_pc_range.getD j (0, 0) =
            (firstStepAtOrAfter stream.step_pc st.program_counter_start_,
             firstStepAtOrAfter stream.step_pc st.program_counter_end_) := by
  rcases getProgramRegions_inv st session_state r st' hcall with
    ⟨hhit, _⟩ | ⟨_, hranges, _, _, _⟩
  · rw [hmiss] at hhit; cases hhit
  · constructor
    · exact streamRanges_length _ _ _ _ hranges
    · intro j hj stream hstream
      obtain ⟨stream', hs', hr'⟩ := streamRanges_getD _ _ _ _ hranges j hj
      have heq : some stream' = some stream := hs'.symm.trans hstream
      injection heq with heq
      subst heq
      rw [hr', scanRegion_eq_spec _ _ _ hse]

/-- Witness for C1 at the spec's worked example: window [2,7) over S1 and S2
gives sub-ranges [1,3) and [1,2). -/
theorem C1_cache_miss_region_spec_witness :
    (⟨2, 7, [(1, 3), (1, 2)]⟩ : ProgramRegion).stream_pc_range.length =
        exampleSession.execution_plan.execution_plan.length ∧
    (⟨2, 7, [(1, 3), (1, 2)]⟩ : ProgramRegion).stream_pc_range.getD 0 (0, 0) =
      (firstStepAtOrAfter [0, 2, 5, 9] 2, firstStepAtOrAfter [0, 2, 5, 9] 7) ∧
    (⟨2, 7, [(1, 3), (1, 2)]⟩ : ProgramRegion).stream_pc_range.getD 1 (0, 0) =
      (firstStepAtOrAfter [1, 3, 7] 2, firstStepAtOrAfter [1, 3, 7] 7) :=
  ⟨(C1_cache_miss_region_spec ⟨2, 7, [], none, none⟩ exampleSession (by decide) (by decide)
      (by decide) ⟨2, 7, [(1, 3), (1, 2)]⟩
      ⟨2, 7, [⟨2, 7, [(1, 3), (1, 2)]⟩], none, none⟩ (by decide)).1,
   (C1_cache_miss_region_spec ⟨2, 7, [], none, none⟩ exampleSession (by decide) (by decide)
      (by decide) ⟨2, 7, [(1, 3), (1, 2)]⟩
      ⟨2, 7, [⟨2, 7, [(1, 3), (1, 2)]⟩], none, none⟩ (by decide)).2 0 (by decide)
      ⟨[0, 2, 5, 9], 4⟩ (by decide),
   (C1_cache_miss_region_spec ⟨2, 7, [], none, none⟩ exampleSession (by decide) (by decide)
      (by decide) ⟨2, 7, [(1, 3), (1, 2)]⟩
      ⟨2, 7, [⟨2, 7, [(1, 3), (1, 2)]⟩], none, none⟩ (by decide)).2 1 (by decide)
      ⟨[1, 3, 7], 3⟩ (by decide)⟩

/-! ## Claim C2 -/

/-- C2: a call to GetProgramRegions leaves the instance in a state where the
very same window is a cache hit: the lookup (exact equality on both start_pc
and end_pc) finds the region returned by the first call, and a second call
returns it again with the state unchanged, without recomputing. -/
theorem C2_repeat_window_returns_cached
    (st : PartialGraphExecutionState) (session_state : SessionState)
    (r : ProgramRegion) (st' : PartialGraphExecutionState)
    (hcall : GetProgramRegions st session_state = some (r, st')) :
    lookupRegion st'.program_regions_ st'.program_counter_start_
        st'.program_counter_end_ = some r ∧
    GetProgramRegions st' session_state = some (r, st') ∧
    r.start_pc = st.program_counter_start_ ∧
    r.end_pc = st.program_counter_end_ := by
  rcases getProgramRegions_inv st session_state r st' hcall with
    ⟨hhit, hst⟩ | ⟨hmiss, _, hs, he, hst⟩
  · subst hst
    have hp := List.find?_some hhit
    simp only [Bool.and_eq_true, beq_iff_eq] at hp
    exact ⟨hhit, getProgramRegions_hit st' session_state r hhit, hp.1, hp.2⟩
  · subst hst
    have hpr : (r.start_pc == st.program_counter_start_ &&
        r.end_pc == st.program_counter_end_) = true := by
      rw [hs, he]; simp
    have hlook : lookupRegion (st.program_regions_ ++ [r]) st.program_counter_start_
        st.program_counter_end_ = some r := by
      unfold lookupRegion at hmiss ⊢
      rw [find?_append_none _ _ _ hmiss]
      simp [List.find?_cons, hpr]
    exact ⟨hlook, getProgramRegions_hit _ session_state r hlook, hs, he⟩

/-- Witness for C2 on the worked example after its first [2,7) call. -/
theorem C2_repeat_window_returns_cached_witness :
    lookupRegion [⟨2, 7, [(1, 3), (1, 2)]⟩] 2 7 = some ⟨2, 7, [(1, 3), (1, 2)]⟩ ∧
    GetProgramRegions ⟨2, 7, [⟨2, 7, [(1, 3), (1, 2)]⟩], none, none⟩ exampleSession =
      some (⟨2, 7, [(1, 3), (1, 2)]⟩,
        ⟨2, 7, [⟨2, 7, [(1, 3), (1, 2)]⟩], none, none⟩) ∧
    (⟨2, 7, [(1, 3), (1, 2)]⟩ : ProgramRegion).start_pc = 2 ∧
    (⟨2, 7, [(1, 3), (1, 2)]⟩ : ProgramRegion).end_pc = 7 :=
  C2_repeat_window_returns_cached ⟨2, 7, [], none, none⟩ exampleSession
    ⟨2, 7, [(1, 3), (1, 2)]⟩ ⟨2, 7, [⟨2, 7, [(1, 3), (1, 2)]⟩], none, none⟩ (by decide)

/-! ## Claim C8 -/

/-- C8: the region cache is append-only — a GetProgramRegions call either
leaves it unchanged (hit) or appends exactly one region at the back (miss),
and neither GetDeviceStreamCollection nor GetExecutionContext touches it. -/
theorem C8_cache_append_only
    (st : PartialGraphExecutionState) (session_state : SessionState)
    (r : ProgramRegion) (st' : PartialGraphExecutionState)
    (hcall : GetProgramRegions st session_state = some (r, st'))
    (feed_mlvalue_idxs : List Int) (feeds : List Nat)
    (fetch_mlvalue_idxs : List Int) (fetches : List Nat)
    (fetch_allocators : List (Nat × Nat)) (sess_logger : Nat)
    (device_streams : DeviceStreamCollection) :
    (st'.program_regions_ = st.program_regions_ ∨
      st'.program_regions_ = st.program_regions_ ++ [r]) ∧
    (GetDeviceStreamCollection st session_state).2.1.program_regions_ =
      st.program_regions_ ∧
    (GetExecutionContext st feed_mlvalue_idxs feeds fetch_mlvalue_idxs fetches
        fetch_allocators session_state sess_logger device_streams).2.program_regions_ =
      st.program_regions_ := by
  refine ⟨?_, ?_, ?_⟩
  · rcases getProgramRegions_inv st session_state r st' hcall with
      ⟨_, hst⟩ | ⟨_, _, _, _, hst⟩
    · left; rw [hst]
    · right; rw [hst]
  · cases hd : st.device_stream_collection_ <;>
      simp [GetDeviceStreamCollection, hd, AcquireDeviceStreamCollection]
  · cases hc : st.execution_context_ <;>
      simp [GetExecutionContext, hc]

/-- Witness for C8: the first [2,7) call on a fresh instance appends the
computed region, and the other two operations leave the cache empty. -/
theorem C8_cache_append_only_witness :
    ([⟨2, 7, [(1, 3), (1, 2)]⟩] = ([] : List ProgramRegion) ∨
      [⟨2, 7, [(1, 3), (1, 2)]⟩] = ([] : List ProgramRegion) ++ [⟨2, 7, [(1, 3), (1, 2)]⟩]) ∧
    (GetDeviceStreamCollection ⟨2, 7, [], none, none⟩ exampleSession).2.1.program_regions_ =
      ([] : List ProgramRegion) ∧
    (GetExecutionContext ⟨2, 7, [], none, none⟩ [] [] [] [] [] exampleSession 0
        0).2.program_regions_ = ([] : List ProgramRegion) :=
  C8_cache_append_only ⟨2, 7, [], none, none⟩ exampleSession
    ⟨2, 7, [(1, 3), (1, 2)]⟩ ⟨2, 7, [⟨2, 7, [(1, 3), (1, 2)]⟩], none, none⟩ (by decide)
    [] [] [] [] [] 0 0

/-! ## Claim C10 -/

/-- C10: every region returned by GetProgramRegions (given that the cached
regions were produced against the same plan) carries exactly one index pair
per stream of the plan, in plan order, with start at most end and end at most
the stream's step count — with no ordering precondition on the step pcs. -/
theorem C10_region_shape
    (st : PartialGraphExecutionState) (session_state : SessionState)
    (hcache : ∀ r' ∈ st.program_regions_,
      regionWF session_state.execution_plan.execution_plan r')
    (r : ProgramRegion) (st' : PartialGraphExecutionState)
    (hcall : GetProgramRegions st session_state = some (r, st')) :
    regionWF session_state.execution_plan.execution_plan r ∧
    ∀ r' ∈ st'.program_regions_,
      regionWF session_state.execution_plan.execution_plan r' := by
  rcases getProgramRegions_inv st session_state r st' hcall with
    ⟨hhit, hst⟩ | ⟨_, hranges, hs, he, hst⟩
  · subst hst
    exact ⟨hcache r (List.mem_of_find?_eq_some hhit), hcache⟩
  · subst hst
    rw [← hs, ← he] at hranges
    have hwf : regionWF session_state.execution_plan.execution_plan
        ⟨r.start_pc, r.end_pc, r.stream_pc_range⟩ :=
      regionWF_of_streamRanges _ _ _ _ hranges
    refine ⟨hwf, ?_⟩
    intro r' hr'
    rcases List.mem_append.mp hr' with h | h
    · exact hcache r' h
    · rw [List.mem_singleton.mp h]
      exact hwf

/-- Witness for C10: the worked example's [2,7) region is well-formed. -/
theorem C10_region_shape_witness :
    regionWF exampleSession.execution_plan.execution_plan ⟨2, 7, [(1, 3), (1, 2)]⟩ :=
  (C10_region_shape ⟨2, 7, [], none, none⟩ exampleSession (by decide)
    ⟨2, 7, [(1, 3), (1, 2)]⟩ ⟨2, 7, [⟨2, 7, [(1, 3), (1, 2)]⟩], none, none⟩ (by decide)).1

/-! ## Claim C7 -/

/-- C7 as stated is false: on the one-stream plan with a single step at pc 3,
the windows [0,1) and [5,6) are non-overlapping and requested in increasing pc
order on one instance (with non-decreasing step pcs), yet the step at index 0
lies in neither computed region — a step is omitted, so the two regions do not
cover every step exactly once. -/
theorem C7_counterexample :
    GetProgramRegions ⟨0, 1, [], none, none⟩ gapSession =
      some (⟨0, 1, [(0, 0)]⟩, ⟨0, 1, [⟨0, 1, [(0, 0)]⟩], none, none⟩) ∧
    GetProgramRegions ⟨5, 6, [⟨0, 1, [(0, 0)]⟩], none, none⟩ gapSession =
      some (⟨5, 6, [(1, 1)]⟩,
        ⟨5, 6, [⟨0, 1, [(0, 0)]⟩, ⟨5, 6, [(1, 1)]⟩], none, none⟩) ∧
    (∀ os ∈ gapSession.execution_plan.execution_plan, streamSorted os) ∧
    (1 : Nat) ≤ 5 ∧
    0 < pcLen (gapSession.execution_plan.execution_plan.getD 0 none) ∧
    ¬ coveredExactlyOnce
        ((⟨0, 1, [(0, 0)]⟩ : ProgramRegion).stream_pc_range.getD 0 (0, 0))
        ((⟨5, 6, [(1, 1)]⟩ : ProgramRegion).stream_pc_range.getD 0 (0, 0)) 0 := by
  decide

/-- C7 amended: for two adjacent windows [a,b) and [b,c) requested in
increasing pc order on one fresh instance, where every step pc of the plan
lies in [a,c) and per-stream step pcs are non-decreasing, the two computed
regions cover every step of the plan exactly once. -/
theorem C7_adjacent_windows_cover_once
    (session_state : SessionState) (a b c : Nat) (hab : a ≤ b) (hbc : b ≤ c)
    (hsorted : ∀ os ∈ session_state.execution_plan.execution_plan, streamSorted os)
    (hspan : ∀ os ∈ session_state.execution_plan.execution_plan, streamSpanned a c os)
    (r1 : ProgramRegion) (st1 : PartialGraphExecutionState)
    (h1 : GetProgramRegions ⟨a, b, [], none, none⟩ session_state = some (r1, st1))
    (r2 : ProgramRegion) (st2 : PartialGraphExecutionState)
    (h2 : GetProgramRegions
        { st1 with program_counter_start_ := b, program_counter_end_ := c }
        session_state = some (r2, st2)) :
    ∀ j, j < session_state.execution_plan.execution_plan.length →
      ∀ stream : LogicStream,
        session_state.execution_plan.execution_plan.getD j none = some stream →
          ∀ k, k < stream.step_pc.length →
            coveredExactlyOnce (r1.stream_pc_range.getD j (0, 0))
              (r2.stream_pc_range.getD j (0, 0)) k := by
  rcases getProgramRegions_inv _ _ _ _ h1 with
    ⟨hhit, _⟩ | ⟨_, hranges1, hs1, he1, hst1⟩
  · simp [lookupRegion] at hhit
  · subst hst1
    intro j hj stream hstream k hk
    have hmem : some stream ∈ session_state.execution_plan.execution_plan :=
      getD_some_mem _ j hj stream hstream
    obtain ⟨stream1, hgs1, hgr1⟩ := streamRanges_getD _ _ _ _ hranges1 j hj
    have heq1 : some stream1 = some stream := hgs1.symm.trans hstream
    injection heq1 with heq1
    rw [heq1] at hgr1
    rcases getProgramRegions_inv _ _ _ _ h2 with
      ⟨hhit2, _⟩ | ⟨_, hranges2, _, _, _⟩
    · -- the second lookup can only hit when a = b and b = c, which forces the
      -- stream to be empty, contradicting the existence of step index k
      have hr2 : r2 = r1 := by
        have := List.mem_of_find?_eq_some hhit2
        simpa using this
      have hp := List.find?_some hhit2
      simp only [Bool.and_eq_true, beq_iff_eq] at hp
      have hs1' : r1.start_pc = a := hs1
      have he1' : r1.end_pc = b := he1
      have hp1 : r1.start_pc = b := by rw [← hr2]; exact hp.1
      have hp2 : r1.end_pc = c := by rw [← hr2]; exact hp.2
      have hab' : a = b := by omega
      have hbc' : b = c := by omega
      have hkmem : stream.step_pc.get ⟨k, hk⟩ ∈ stream.step_pc :=
        List.get_mem stream.step_pc k hk
      exact absurd (hspan _ hmem _ hkmem) (by omega)
    · obtain ⟨stream2, hgs2, hgr2⟩ := streamRanges_getD _ _ _ _ hranges2 j hj
      have heq2 : some stream2 = some stream := hgs2.symm.trans hstream
      injection heq2 with heq2
      rw [heq2] at hgr2
      rw [hgr1, hgr2]
      exact scanRegion_partition stream.step_pc a b c hab hbc (hspan _ hmem) k hk

/-- Witness for the amended C7: on the worked example, windows [0,5) and
[5,10) are adjacent and span every step pc; step index 1 of stream S1 is
covered exactly once by the two regions. -/
theorem C7_adjacent_windows_cover_once_witness :
    coveredExactlyOnce
      ((⟨0, 5, [(0, 2), (0, 2)]⟩ : ProgramRegion).stream_pc_range.getD 0 (0, 0))
      ((⟨5, 10, [(2, 4), (2, 3)]⟩ : ProgramRegion).stream_pc_range.getD 0 (0, 0)) 1 :=
  C7_adjacent_windows_cover_once exampleSession 0 5 10 (by decide) (by decide)
    (by decide) (by decide)
    ⟨0, 5, [(0, 2), (0, 2)]⟩ ⟨0, 5, [⟨0, 5, [(0, 2), (0, 2)]⟩], none, none⟩ (by decide)
    ⟨5, 10, [(2, 4), (2, 3)]⟩
    ⟨5, 10, [⟨0, 5, [(0, 2), (0, 2)]⟩, ⟨5, 10, [(2, 4), (2, 3)]⟩], none, none⟩ (by decide)
    0 (by decide) ⟨[0, 2, 5, 9], 4⟩ (by decide) 1 (by decide)

/-! ## Claim C3 -/

/-- C3: once the execution context exists, a further GetExecutionContext call
changes only the frame's feed/fetch bindings and the logger; barrier count,
notification owners, device streams, stream count, single-thread flag and
fetch allocators are untouched, and the returned context is the one stored
back on the otherwise-unchanged instance. -/
theorem C3_resumption_updates_only_bindings
    (st : PartialGraphExecutionState) (ctx : ExecutionContext)
    (hctx : st.execution_context_ = some ctx)
    (feed_mlvalue_idxs : List Int) (feeds : List Nat)
    (fetch_mlvalue_idxs : List Int) (fetches : List Nat)
    (fetch_allocators : List (Nat × Nat)) (session_state : SessionState)
    (sess_logger : Nat) (device_streams : DeviceStreamCollection) :
    (GetExecutionContext st feed_mlvalue_idxs feeds fetch_mlvalue_idxs fetches
        fetch_allocators session_state sess_logger device_streams).1.num_barriers =
      ctx.num_barriers ∧
    (GetExecutionContext st feed_mlvalue_idxs feeds fetch_mlvalue_idxs fetches
        fetch_allocators session_state sess_logger
        device_streams).1.notification_owners = ctx.notification_owners ∧
    (GetExecutionContext st feed_mlvalue_idxs feeds fetch_mlvalue_idxs fetches
        fetch_allocators session_state sess_logger device_streams).1.device_streams =
      ctx.device_streams ∧
    (GetExecutionContext st feed_mlvalue_idxs feeds fetch_mlvalue_idxs fetches
        fetch_allocators session_state sess_logger device_streams).1.valid_streams =
      ctx.valid_streams ∧
    (GetExecutionContext st feed_mlvalue_idxs feeds fetch_mlvalue_idxs fetches
        fetch_allocators session_state sess_logger
        device_streams).1.single_thread_mode = ctx.single_thread_mode ∧
    (GetExecutionContext st feed_mlvalue_idxs feeds fetch_mlvalue_idxs fetches
        fetch_allocators session_state sess_logger
        device_streams).1.fetch_allocators = ctx.fetch_allocators ∧
    (GetExecutionContext st feed_mlvalue_idxs feeds fetch_mlvalue_idxs fetches
        fetch_allocators session_state sess_logger
        device_streams).1.frame.feed_mlvalue_idxs = feed_mlvalue_idxs ∧
    (GetExecutionContext st feed_mlvalue_idxs feeds fetch_mlvalue_idxs fetches
        fetch_allocators session_state sess_logger device_streams).1.frame.feeds =
      feeds ∧
    (GetExecutionContext st feed_mlvalue_idxs feeds fetch_mlvalue_idxs fetches
        fetch_allocators session_state sess_logger
        device_streams).1.frame.fetch_mlvalue_idxs = fetch_mlvalue_idxs ∧
    (GetExecutionContext st feed_mlvalue_idxs feeds fetch_mlvalue_idxs fetches
        fetch_allocators session_state sess_logger device_streams).1.frame.fetches =
      fetches ∧
    (GetExecutionContext st feed_mlvalue_idxs feeds fetch_mlvalue_idxs fetches
        fetch_allocators session_state sess_logger device_streams).1.logger =
      sess_logger ∧
    (GetExecutionContext st feed_mlvalue_idxs feeds fetch_mlvalue_idxs fetches
        fetch_allocators session_state sess_logger device_streams).2 =
      { st with execution_context_ :=
          (some (GetExecutionContext st feed_mlvalue_idxs feeds fetch_mlvalue_idxs
            fetches fetch_allocators session_state sess_logger device_streams).1) } := by
  unfold GetExecutionContext
  rw [hctx]
  simp [ExecutionFrame.UpdateFeeds, ExecutionFrame.UpdateFetches,
    ExecutionContext.SetLogger]

/-- Witness for C3 on a concrete already-initialized instance. -/
theorem C3_resumption_updates_only_bindings_witness :
    (GetExecutionContext resumeState [1] [5] [2] [6] [] exampleSession 9
        3).1.num_barriers = resumeCtx.num_barriers ∧
    (GetExecutionContext resumeState [1] [5] [2] [6] [] exampleSession 9
        3).1.notification_owners = resumeCtx.notification_owners ∧
    (GetExecutionContext resumeState [1] [5] [2] [6] [] exampleSession 9
        3).1.device_streams = resumeCtx.device_streams ∧
    (GetExecutionContext resumeState [1] [5] [2] [6] [] exampleSession 9
        3).1.valid_streams = resumeCtx.valid_streams ∧
    (GetExecutionContext resumeState [1] [5] [2] [6] [] exampleSession 9
        3).1.single_thread_mode = resumeCtx.single_thread_mode ∧
    (GetExecutionContext resumeState [1] [5] [2] [6] [] exampleSession 9
        3).1.fetch_allocators = resumeCtx.fetch_allocators ∧
    (GetExecutionContext resumeState [1] [5] [2] [6] [] exampleSession 9
        3).1.frame.feed_mlvalue_idxs = [1] ∧
    (GetExecutionContext resumeState [1] [5] [2] [6] [] exampleSession 9
        3).1.frame.feeds = [5] ∧
    (GetExecutionContext resumeState [1] [5] [2] [6] [] exampleSession 9
        3).1.frame.fetch_mlvalue_idxs = [2] ∧
    (GetExecutionContext resumeState [1] [5] [2] [6] [] exampleSession 9
        3).1.frame.fetches = [6] ∧
    (GetExecutionContext resumeState [1] [5] [2] [6] [] exampleSession 9
        3).1.logger = 9 ∧
    (GetExecutionContext resumeState [1] [5] [2] [6] [] exampleSession 9 3).2 =
      { resumeState with
        execution_context_ :=
          (some (GetExecutionContext resumeState [1] [5] [2] [6] []
            exampleSession 9 3).1) } :=
  C3_resumption_updates_only_bindings resumeState resumeCtx rfl
    [1] [5] [2] [6] [] exampleSession 9 3

/-! ## Claim C9 -/

theorem countValidStreams_aux (streams : List (Option LogicStream)) (n : Nat) :
    streams.foldl
      (fun valid_streams stream =>
        match stream with
        | some s => if 0 < s.steps_size then valid_streams + 1 else valid_streams
        | none => valid_streams) n =
    n + (streams.filter isValidStream).length := by
  induction streams generalizing n with
  | nil => simp
  | cons os rest ih =>
      cases os with
      | none =>
          simp only [List.foldl_cons]
          rw [ih]
          simp [List.filter_cons, isValidStream]
      | some s =>
          simp only [List.foldl_cons]
          rw [ih]
          by_cases h : 0 < s.steps_size
          · simp only [List.filter_cons, isValidStream, decide_eq_true_eq,
              if_pos h, List.length_cons]
            omega
          · simp only [List.filter_cons, isValidStream, decide_eq_true_eq,
              if_neg h]

theorem countValidStreams_eq (streams : List (Option LogicStream)) :
    countValidStreams streams = (streams.filter isValidStream).length := by
  simpa [countValidStreams] using countValidStreams_aux streams 0

/-- C9: the first GetExecutionContext call fixes the context's stream count to
the number of plan streams that are non-null and hold at least one step (not
the total stream count), and hard-codes single-thread mode to true, whatever
the call's arguments are. -/
theorem C9_first_context_construction
    (st : PartialGraphExecutionState) (hctx : st.execution_context_ = none)
    (feed_mlvalue_idxs : List Int) (feeds : List Nat)
    (fetch_mlvalue_idxs : List Int) (fetches : List Nat)
    (fetch_allocators : List (Nat × Nat)) (session_state : SessionState)
    (sess_logger : Nat) (device_streams : DeviceStreamCollection) :
    (GetExecutionContext st feed_mlvalue_idxs feeds fetch_mlvalue_idxs fetches
        fetch_allocators session_state sess_logger device_streams).1.valid_streams =
      (session_state.execution_plan.execution_plan.filter isValidStream).length ∧
    (GetExecutionContext st feed_mlvalue_idxs feeds fetch_mlvalue_idxs fetches
        fetch_allocators session_state sess_logger
        device_streams).1.single_thread_mode = true := by
  unfold GetExecutionContext
  rw [hctx]
  exact ⟨countValidStreams_eq _, rfl⟩

/-- Witness for C9 on the mixed plan: one null stream, one empty stream and
one two-step stream give a stream count of 1, not 3. -/
theorem C9_first_context_construction_witness :
    (GetExecutionContext ⟨0, 3, [], none, none⟩ [] [] [] [] [] mixedSession 7
        4).1.valid_streams =
      (mixedSession.execution_plan.execution_plan.filter isValidStream).length ∧
    (GetExecutionContext ⟨0, 3, [], none, none⟩ [] [] [] [] [] mixedSession 7
        4).1.single_thread_mode = true ∧
    (mixedSession.execution_plan.execution_plan.filter isValidStream).length = 1 ∧
    mixedSession.execution_plan.execution_plan.length = 3 :=
  ⟨(C9_first_context_construction ⟨0, 3, [], none, none⟩ rfl [] [] [] [] []
      mixedSession 7 4).1,
   (C9_first_context_construction ⟨0, 3, [], none, none⟩ rfl [] [] [] [] []
      mixedSession 7 4).2,
   by decide, by decide⟩

/-! ## Claim C4 -/

/-- C4: the first GetDeviceStreamCollection call acquires a collection from
the session and caches it; the second call returns the identical result
without acquiring again; destruction of the instance leaves the session
untouched, and in particular nothing is ever recycled back to the pool. -/
theorem C4_device_stream_lifecycle
    (st : PartialGraphExecutionState) (session_state : SessionState)
    (hnone : st.device_stream_collection_ = none) :
    (GetDeviceStreamCollection st session_state).2.2.acquired_stream_collections =
      session_state.acquired_stream_collections + 1 ∧
    (GetDeviceStreamCollection st session_state).2.1.device_stream_collection_ =
      some (GetDeviceStreamCollection st session_state).1 ∧
    GetDeviceStreamCollection (GetDeviceStreamCollection st session_state).2.1
        (GetDeviceStreamCollection st session_state).2.2 =
      GetDeviceStreamCollection st session_state ∧
    destructPartialGraphExecutionState (GetDeviceStreamCollection st session_state).2.1
        (GetDeviceStreamCollection st session_state).2.2 =
      (GetDeviceStreamCollection st session_state).2.2 ∧
    (GetDeviceStreamCollection st session_state).2.2.recycled_stream_collections =
      session_state.recycled_stream_collections := by
  simp [GetDeviceStreamCollection, hnone, AcquireDeviceStreamCollection,
    destructPartialGraphExecutionState]

/-- Witness for C4 on a fresh instance over the worked-example session. -/
theorem C4_device_stream_lifecycle_witness :
    (GetDeviceStreamCollection ⟨0, 0, [], none, none⟩
        exampleSession).2.2.acquired_stream_collections =
      exampleSession.acquired_stream_collections + 1 ∧
    (GetDeviceStreamCollection ⟨0, 0, [], none, none⟩
        exampleSession).2.1.device_stream_collection_ =
      some (GetDeviceStreamCollection ⟨0, 0, [], none, none⟩ exampleSession).1 ∧
    GetDeviceStreamCollection
        (GetDeviceStreamCollection ⟨0, 0, [], none, none⟩ exampleSession).2.1
        (GetDeviceStreamCollection ⟨0, 0, [], none, none⟩ exampleSession).2.2 =
      GetDeviceStreamCollection ⟨0, 0, [], none, none⟩ exampleSession ∧
    destructPartialGraphExecutionState
        (GetDeviceStreamCollection ⟨0, 0, [], none, none⟩ exampleSession).2.1
        (GetDeviceStreamCollection ⟨0, 0, [], none, none⟩ exampleSession).2.2 =
      (GetDeviceStreamCollection ⟨0, 0, [], none, none⟩ exampleSession).2.2 ∧
    (GetDeviceStreamCollection ⟨0, 0, [], none, none⟩
        exampleSession).2.2.recycled_stream_collections =
      exampleSession.recycled_stream_collections :=
  C4_device_stream_lifecycle ⟨0, 0, [], none, none⟩ exampleSession rfl

/-! ## Claim C5 -/

theorem registerKernels_customs (ps : List IExecutionProvider)
    (m : KernelRegistryManager) :
    (RegisterKernels m ps).2.custom_kernel_registries_ =
      m.custom_kernel_registries_ := by
  induction ps generalizing m with
  | nil => rfl
  | cons p rest ih =>
      unfold RegisterKernels
      cases hl : m.provider_type_to_registry_.lookup p.provider_type with
      | some r => rfl
      | none => exact ih _

theorem foldl_applyRegistration_customs (ops : List RegistrationOp)
    (m : KernelRegistryManager) :
    (ops.foldl applyRegistration m).custom_kernel_registries_ =
      (customRegistrationsOf ops).reverse ++ m.custom_kernel_registries_ := by
  induction ops generalizing m with
  | nil => simp [customRegistrationsOf]
  | cons op rest ih =>
      cases op with
      | kernels ps =>
          simp only [List.foldl_cons, customRegistrationsOf]
          rw [ih]
          simp [applyRegistration, registerKernels_customs]
      | customRegistry r =>
          simp only [List.foldl_cons, customRegistrationsOf, List.reverse_cons]
          rw [ih]
          simp [applyRegistration, RegisterKernelRegistry, List.append_assoc]

/-- C5: after any sequence of RegisterKernels and RegisterKernelRegistry
calls, GetKernelRegistriesByProviderType lists exactly the custom registries
in reverse registration order (most recent first) followed by the
provider-type registry for the queried type when one exists — so every custom
registry is considered before the provider-type registry. -/
theorem C5_registry_priority_order (ops : List RegistrationOp) (ty : String) :
    GetKernelRegistriesByProviderType (ops.foldl applyRegistration
        emptyKernelRegistryManager) ty =
      (customRegistrationsOf ops).reverse ++
        ((ops.foldl applyRegistration
          emptyKernelRegistryManager).provider_type_to_registry_.lookup ty).toList := by
  unfold GetKernelRegistriesByProviderType
  rw [foldl_applyRegistration_customs]
  simp [emptyKernelRegistryManager]

/-! ## Claim C6 -/

theorem registerKernels_preserves (ps : List IExecutionProvider)
    (m : KernelRegistryManager) (t : String) (r : KernelRegistry)
    (h : m.provider_type_to_registry_.lookup t = some r) :
    (RegisterKernels m ps).2.provider_type_to_registry_.lookup t = some r := by
  induction ps generalizing m with
  | nil => exact h
  | cons p rest ih =>
      unfold RegisterKernels
      cases hl : m.provider_type_to_registry_.lookup p.provider_type with
      | some r' => exact h
      | none =>
          apply ih
          by_cases hpt : t = p.provider_type
          · rw [hpt] at h; rw [hl] at h; cases h
          · have hne : (t == p.provider_type) = false := beq_eq_false_iff_ne.mpr hpt
            simp only [List.lookup, hne]
            exact h

theorem registerKernels_ok (ps : List IExecutionProvider) (m : KernelRegistryManager)
    (h : (RegisterKernels m ps).1 = Status.ok) :
    (ps.map (fun p => p.provider_type)).Nodup ∧
    ∀ p ∈ ps, m.provider_type_to_registry_.lookup p.provider_type = none := by
  induction ps generalizing m with
  | nil => exact ⟨List.nodup_nil, by simp⟩
  | cons p rest ih =>
      unfold RegisterKernels at h
      cases hl : m.provider_type_to_registry_.lookup p.provider_type with
      | some r => rw [hl] at h; cases h
      | none =>
          rw [hl] at h
          obtain ⟨hnd, hnone⟩ := ih _ h
          constructor
          · simp only [List.map_cons, List.nodup_cons]
            refine ⟨?_, hnd⟩
            intro hmem
            obtain ⟨q, hq, hqt⟩ := List.mem_map.mp hmem
            have hqn := hnone q hq
            rw [← hqt] at hqn
            simp [List.lookup] at hqn
          · intro q hq
            rcases List.mem_cons.mp hq with rfl | hq'
            · exact hl
            · have hqn := hnone q hq'
              by_cases hpt : q.provider_type = p.provider_type
              · rw [hpt] at hqn
                simp [List.lookup] at hqn
              · have hne : (q.provider_type == p.provider_type) = false :=
                  beq_eq_false_iff_ne.mpr hpt
                simpa only [List.lookup, hne] using hqn

/-- C6: a RegisterKernels call whose providers would register a provider type
twice — be it a duplicate within the call or a type already in the
provider-type map — does not return ok, and never overwrites a registry
already stored for any provider type. -/
theorem C6_duplicate_provider_type_fails (m : KernelRegistryManager)
    (providers : List IExecutionProvider)
    (hdup : ¬ ((providers.map (fun p => p.provider_type)).Nodup ∧
        ∀ p ∈ providers,
          m.provider_type_to_registry_.lookup p.provider_type = none)) :
    (RegisterKernels m providers).1 ≠ Status.ok ∧
    ∀ t r, m.provider_type_to_registry_.lookup t = some r →
      (RegisterKernels m providers).2.provider_type_to_registry_.lookup t = some r := by
  refine ⟨?_, fun t r h => registerKernels_preserves providers m t r h⟩
  intro hok
  exact hdup (registerKernels_ok providers m hok)

/-- Witness for C6: re-registering an already-present provider type fails and
keeps the stored registry. -/
theorem C6_duplicate_provider_type_fails_witness :
    (RegisterKernels ⟨[("CPUExecutionProvider", 1)], []⟩
        [⟨"CPUExecutionProvider", 2⟩]).1 ≠ Status.ok ∧
    (RegisterKernels ⟨[("CPUExecutionProvider", 1)], []⟩
        [⟨"CPUExecutionProvider", 2⟩]).2.provider_type_to_registry_.lookup
        ("CPUExecutionProvider") = some 1 :=
  ⟨(C6_duplicate_provider_type_fails ⟨[("CPUExecutionProvider", 1)], []⟩
      [⟨"CPUExecutionProvider", 2⟩]
      (by
        intro h
        have := h.2 ⟨"CPUExecutionProvider", 2⟩ (List.mem_cons_self _ _)
        simp [List.lookup] at this)).1,
   (C6_duplicate_provider_type_fails ⟨[("CPUExecutionProvider", 1)], []⟩
      [⟨"CPUExecutionProvider", 2⟩]
      (by
        intro h
        have := h.2 ⟨"CPUExecutionProvider", 2⟩ (List.mem_cons_self _ _)
        simp [List.lookup] at this)).2 ("CPUExecutionProvider") 1
      (by simp [List.lookup])⟩

end onnxruntime
